import Mathlib

/-!
Verification development for the iowow auto-expandable file module
(src/src/fs/iwexfile.h).  The header declares the interface: an expandable
file with a pluggable resize policy, a registry of mmaped regions kept
consistent across resize/truncate, and module-specific error codes.  The
operations' behaviour is modelled from the specification document, since
only the interface header is present in the source tree; the error-code
enum is embedded directly from the header.
-/

namespace Iwexfile

/-- Error values surfaced by this layer (beyond those of the underlying file):
mmap-overlap, not-mapped, resize-policy-violation, plus an invalid-argument
case for precondition failures. -/
inductive Err where
  | mmapOverlap
  | notMmaped
  | resizePolicyFail
  | invalidArgs
deriving DecidableEq, Repr

/-- Modelled from the spec: an MmapRegion of the Mmap Region Registry.
The live OS mapping itself is not modelled; its presence is reflected by
mapped_len, which the spec requires to agree with the mapping's liveness. -/
structure MmapRegion where
  offset : Int
  capacity : Nat
  mapped_len : Nat
deriving DecidableEq, Repr

/-- Modelled from the spec: the mapped length a region must have at file size
csize, namely min(capacity, max(0, csize - offset)); Int.toNat realises the
max with 0. -/
def derivedLen (csize roff : Int) (cap : Nat) : Nat :=
  min cap (csize - roff).toNat

/-- Modelled from the spec: the ExpandableFile state visible to the claims:
current logical size, the region registry, the opaque policy state, and a
trace of the nsize arguments of every resize-policy invocation (used to
express how often and with which arguments the policy was called).  The
underlying file's byte content is outside this layer's data model. -/
structure ExFile (σ : Type) where
  current_size : Int
  regions : List MmapRegion
  pstate : σ
  rtrace : List Int
deriving Repr

/-- Modelled from the spec: a resize policy maps (nsize, csize, policy state)
to (returned size, new policy state); the C file reference argument carries
no information the model needs beyond csize. -/
abbrev RsPolicy (σ : Type) : Type := Int → Int → σ → Int × σ

/-- Modelled from the spec: recompute every region's mapped_len against a new
file size (the remap step of ensure_size/truncate). -/
def remapAll (csize : Int) (rs : List MmapRegion) : List MmapRegion :=
  rs.map fun r => { r with mapped_len := derivedLen csize r.offset r.capacity }

/-- Modelled from the spec: ensure_size(target).  No-op when target fits the
current size; otherwise the policy is invoked for target, a returned size
smaller than target fails with resize-policy-violation and changes no size,
and a valid returned size becomes the new current_size with every region
remapped. -/
def ensure_size (pol : RsPolicy σ) (f : ExFile σ) (target : Int) :
    Option Err × ExFile σ :=
  if target ≤ f.current_size then (none, f)
  else if (pol target f.current_size f.pstate).1 < target then
    (some Err.resizePolicyFail,
      { f with pstate := (pol target f.current_size f.pstate).2,
               rtrace := f.rtrace ++ [target] })
  else
    (none,
      { current_size := (pol target f.current_size f.pstate).1,
        regions := remapAll (pol target f.current_size f.pstate).1 f.regions,
        pstate := (pol target f.current_size f.pstate).2,
        rtrace := f.rtrace ++ [target] })

/-- Modelled from the spec: truncate(target) requires target nonnegative, sets
current_size exactly to target without consulting the resize policy, and
remaps every region against the new size. -/
def truncate (f : ExFile σ) (target : Int) : Option Err × ExFile σ :=
  if target < 0 then (some Err.invalidArgs, f)
  else (none, { f with current_size := target,
                       regions := remapAll target f.regions })

/-- Modelled from the spec: does the declared span [off, off+len) intersect
region r's declared span [r.offset, r.offset + r.capacity)? -/
def overlapsB (off : Int) (len : Nat) (r : MmapRegion) : Bool :=
  decide (off < r.offset + (r.capacity : Int)) &&
    decide (r.offset < off + (len : Int))

/-- Modelled from the spec: add_mmap(off, maxlen) requires off nonnegative and
maxlen positive, fails with mmap-overlap when the declared span intersects a
registered region's declared span, and otherwise registers the region with
its mapped_len derived from the current file size. -/
def add_mmap (f : ExFile σ) (off : Int) (maxlen : Nat) :
    Option Err × ExFile σ :=
  if off < 0 ∨ maxlen = 0 then (some Err.invalidArgs, f)
  else if f.regions.any (overlapsB off maxlen) then (some Err.mmapOverlap, f)
  else
    (none,
      { f with regions := f.regions ++
          [{ offset := off, capacity := maxlen,
             mapped_len := derivedLen f.current_size off maxlen }] })

/-- Modelled from the spec: get_mmap(off) returns the mapped length of the
region registered exactly at off, failing with not-mapped when no region
matches or the matching region's mapped_len is zero. -/
def get_mmap (f : ExFile σ) (off : Int) : Except Err Nat :=
  match f.regions.find? (fun r => r.offset == off) with
  | none => Except.error Err.notMmaped
  | some r => if r.mapped_len = 0 then Except.error Err.notMmaped
              else Except.ok r.mapped_len

/-- Modelled from the spec: remove_mmap(off) fails with not-mapped when no
region is registered exactly at off, and otherwise removes the region at
that offset from the registry. -/
def remove_mmap (f : ExFile σ) (off : Int) : Option Err × ExFile σ :=
  if f.regions.any (fun r => r.offset == off) then
    (none, { f with regions := f.regions.filter (fun r => r.offset != off) })
  else (some Err.notMmaped, f)

/-- Modelled from the spec: sync_mmap(off) fails with not-mapped when no
region is registered exactly at off or the matching region is currently
unmapped; a successful flush changes no model state. -/
def sync_mmap (f : ExFile σ) (off : Int) : Option Err × ExFile σ :=
  match f.regions.find? (fun r => r.offset == off) with
  | none => (some Err.notMmaped, f)
  | some r => if r.mapped_len = 0 then (some Err.notMmaped, f) else (none, f)

/-- Modelled from the spec: write(off, buf, len) grows the file through
ensure_size when off+len exceeds current_size and writes directly otherwise;
byte content is outside the model, so a direct write leaves the state
unchanged. -/
def write (pol : RsPolicy σ) (f : ExFile σ) (off : Int) (len : Nat) :
    Option Err × ExFile σ :=
  if f.current_size < off + (len : Int) then ensure_size pol f (off + (len : Int))
  else (none, f)

/-- First error wins: keep an already recorded error, otherwise take the new
one (the continue-on-error accumulation used by close). -/
def keepFirst (a b : Option Err) : Option Err :=
  match a with
  | some e => some e
  | none => b

/-- The first error present in a list of step outcomes. -/
def firstSome : List (Option Err) → Option Err
  | [] => none
  | some e :: _ => some e
  | none :: rest => firstSome rest

/-- Modelled from the spec: close() unmaps and removes every region (each
unmap may fail, per the oracle unmapErr), then invokes the policy teardown
call with nsize = -1 exactly once (a nonzero teardown result is a
resize-policy-violation), then closes the underlying file (closeErr).  Every
step runs even after an earlier failure and the first error is returned. -/
def close (pol : RsPolicy σ) (unmapErr : Int → Option Err)
    (closeErr : Option Err) (f : ExFile σ) : Option Err × ExFile σ :=
  let rc1 := f.regions.foldl (fun acc r => keepFirst acc (unmapErr r.offset)) none
  let td := pol (-1) f.current_size f.pstate
  let rc2 := keepFirst rc1
    (if td.1 = 0 then none else some Err.resizePolicyFail)
  let rc3 := keepFirst rc2 closeErr
  (rc3, { current_size := f.current_size, regions := [], pstate := td.2,
          rtrace := f.rtrace ++ [-1] })

/-- Round x up to the next multiple of the page size. -/
def roundUpPage (page : Nat) (x : Int) : Int :=
  (page : Int) * ((x + (page : Int) - 1) / (page : Int))

/-- Modelled from the spec: the default Fibonacci resize policy
iw_exfile_repolicy_fibo.  Its private state holds the previous two returned
sizes (p0, p1), seeded from current_size on first use; a resize call returns
max(nsize, p0 + p1) rounded up to the page size and remembers (p1, result);
the teardown call (nsize = -1) releases the state and returns 0. -/
def iw_exfile_repolicy_fibo (page : Nat) : RsPolicy (Option (Int × Int)) :=
  fun nsize csize st =>
    if nsize = -1 then (0, none)
    else
      let p := st.getD (csize, csize)
      let res := roundUpPage page (max nsize (p.1 + p.2))
      (res, some (p.2, res))

/-- Structural and write operations of the expandable file, used to speak
about arbitrary operation sequences. -/
inductive ExOp where
  | ensure (target : Int)
  | trunc (target : Int)
  | addm (off : Int) (len : Nat)
  | remm (off : Int)
  | wr (off : Int) (len : Nat)
  | syncm (off : Int)
deriving Repr

/-- Apply one operation, returning its error outcome and the next state (the
state is unchanged, except for the policy-call trace, when the operation
fails). -/
def applyOp (pol : RsPolicy σ) (f : ExFile σ) : ExOp → Option Err × ExFile σ
  | ExOp.ensure t => ensure_size pol f t
  | ExOp.trunc t => truncate f t
  | ExOp.addm o l => add_mmap f o l
  | ExOp.remm o => remove_mmap f o
  | ExOp.wr o l => write pol f o l
  | ExOp.syncm o => sync_mmap f o

/-- Run a sequence of operations, threading the state. -/
def runOps (pol : RsPolicy σ) (f : ExFile σ) : List ExOp → ExFile σ
  | [] => f
  | op :: rest => runOps pol (applyOp pol f op).2 rest

/-- The spans of region a and region b intersect. -/
def Intersects (a b : MmapRegion) : Prop :=
  a.offset < b.offset + (b.capacity : Int) ∧ b.offset < a.offset + (a.capacity : Int)

/-- No two distinct registered regions have intersecting declared spans. -/
def NoOverlap (rs : List MmapRegion) : Prop :=
  rs.Pairwise fun a b => ¬ Intersects a b

/-- Every registered region's mapped_len agrees with the current file size. -/
def SizeInv (f : ExFile σ) : Prop :=
  ∀ r ∈ f.regions, r.mapped_len = derivedLen f.current_size r.offset r.capacity

/-- States whose size is nonnegative and whose policy-call trace holds only
nonnegative nsize arguments (no teardown call has happened yet). -/
def GoodState (f : ExFile σ) : Prop :=
  0 ≤ f.current_size ∧ ∀ x ∈ f.rtrace, 0 ≤ x

/-- The error-code enum of iwexfile.h, as functions of the externally defined
base IW_ERROR_START; C enum semantics make each enumerator one more than its
predecessor. -/
def IWFS_EXFILE_ERROR_START (iwErrorStart : Nat) : Nat := iwErrorStart + 2000

/-- Enum successor of IWFS_EXFILE_ERROR_START. -/
def IWFS_ERROR_MMAP_OVERLAP (s : Nat) : Nat := IWFS_EXFILE_ERROR_START s + 1

/-- Enum successor of IWFS_ERROR_MMAP_OVERLAP. -/
def IWFS_ERROR_NOT_MMAPED (s : Nat) : Nat := IWFS_ERROR_MMAP_OVERLAP s + 1

/-- Enum successor of IWFS_ERROR_NOT_MMAPED. -/
def IWFS_ERROR_RESIZE_POLICY_FAIL (s : Nat) : Nat := IWFS_ERROR_NOT_MMAPED s + 1

/-- Enum successor of IWFS_ERROR_RESIZE_POLICY_FAIL, the end marker. -/
def IWFS_EXFILE_ERROR_END (s : Nat) : Nat := IWFS_ERROR_RESIZE_POLICY_FAIL s + 1

/-- Identity-like resize policy over a trivial state, used for witnesses. -/
def polId : RsPolicy Unit := fun n _ s => (n, s)

/-- Policy that always answers 0, violating the lower-bound contract. -/
def polZero : RsPolicy Unit := fun _ _ s => (0, s)

/-- Unmap-error oracle that always succeeds, used for witnesses. -/
def u0 : Int → Option Err := fun _ => none

/-- Freshly opened file of size 0 with an empty registry. -/
def file0 : ExFile Unit :=
  { current_size := 0, regions := [], pstate := (), rtrace := [] }

/-- File of size 4096 holding one fully mapped region at offset 0. -/
def fileA : ExFile Unit :=
  { current_size := 4096,
    regions := [{ offset := 0, capacity := 4096, mapped_len := 4096 }],
    pstate := (), rtrace := [] }

/-! Helper lemmas shared by the claim theorems. -/

lemma le_roundUpPage (page : Nat) (hp : 0 < page) (x : Int) :
    x ≤ roundUpPage page x := by
  unfold roundUpPage
  have hp' : (0 : Int) < (page : Int) := by exact_mod_cast hp
  have h1 := Int.ediv_add_emod (x + (page : Int) - 1) (page : Int)
  have h2 := Int.emod_nonneg (x + (page : Int) - 1)
    (by omega : ((page : Int)) ≠ 0)
  have h3 := Int.emod_lt_of_pos (x + (page : Int) - 1) hp'
  linarith

lemma fibo_resize_eq (page : Nat) (nsize csize : Int) (st : Option (Int × Int))
    (hne : nsize ≠ -1) :
    iw_exfile_repolicy_fibo page nsize csize st =
      (roundUpPage page
         (max nsize ((st.getD (csize, csize)).1 + (st.getD (csize, csize)).2)),
       some ((st.getD (csize, csize)).2,
         roundUpPage page
           (max nsize ((st.getD (csize, csize)).1 + (st.getD (csize, csize)).2)))) := by
  simp only [iw_exfile_repolicy_fibo, if_neg hne]

lemma sizeInv_remap (csize : Int) (rs : List MmapRegion) :
    ∀ r ∈ remapAll csize rs,
      r.mapped_len = derivedLen csize r.offset r.capacity := by
  intro r hr
  rcases List.mem_map.mp hr with ⟨r0, _, rfl⟩
  rfl

lemma ensure_size_sizeInv (pol : RsPolicy σ) (f : ExFile σ) (t : Int)
    (h : SizeInv f) : SizeInv (ensure_size pol f t).2 := by
  unfold ensure_size
  split
  · exact h
  · split
    · exact h
    · exact fun r hr => sizeInv_remap _ _ r hr

lemma truncate_sizeInv (f : ExFile σ) (t : Int) (ht : 0 ≤ t) :
    SizeInv (truncate f t).2 := by
  unfold truncate
  rw [if_neg (not_lt.mpr ht)]
  exact fun r hr => sizeInv_remap _ _ r hr

/-- Claim C10: the three module error codes of iwexfile.h are consecutive,
pairwise distinct, and lie strictly between IW_ERROR_START + 2000 and the
end marker of the enum, for every value of the external base
IW_ERROR_START. -/
theorem c10_error_codes :
    ∀ s : Nat,
      IWFS_ERROR_MMAP_OVERLAP s = IWFS_EXFILE_ERROR_START s + 1 ∧
      IWFS_ERROR_NOT_MMAPED s = IWFS_ERROR_MMAP_OVERLAP s + 1 ∧
      IWFS_ERROR_RESIZE_POLICY_FAIL s = IWFS_ERROR_NOT_MMAPED s + 1 ∧
      IWFS_EXFILE_ERROR_START s < IWFS_ERROR_MMAP_OVERLAP s ∧
      IWFS_ERROR_RESIZE_POLICY_FAIL s < IWFS_EXFILE_ERROR_END s ∧
      IWFS_ERROR_MMAP_OVERLAP s ≠ IWFS_ERROR_NOT_MMAPED s ∧
      IWFS_ERROR_MMAP_OVERLAP s ≠ IWFS_ERROR_RESIZE_POLICY_FAIL s ∧
      IWFS_ERROR_NOT_MMAPED s ≠ IWFS_ERROR_RESIZE_POLICY_FAIL s := by
  intro s
  unfold IWFS_EXFILE_ERROR_END IWFS_ERROR_RESIZE_POLICY_FAIL
    IWFS_ERROR_NOT_MMAPED IWFS_ERROR_MMAP_OVERLAP IWFS_EXFILE_ERROR_START
  exact ⟨by omega, by omega, by omega, by omega, by omega, by omega,
    by omega, by omega⟩

/-- Claim C3: when the file must grow and the policy answers a size smaller
than the requested target, ensure_size fails with resize-policy-violation
and neither current_size nor the registry changes. -/
theorem c3_resize_policy_violation (σ : Type) (pol : RsPolicy σ)
    (f : ExFile σ) (t : Int) (hgrow : f.current_size < t)
    (hbad : (pol t f.current_size f.pstate).1 < t) :
    (ensure_size pol f t).1 = some Err.resizePolicyFail ∧
    (ensure_size pol f t).2.current_size = f.current_size ∧
    (ensure_size pol f t).2.regions = f.regions := by
  unfold ensure_size
  rw [if_neg (not_le.mpr hgrow), if_pos hbad]
  exact ⟨rfl, rfl, rfl⟩

/-- Witness for C3 at a concrete input: the always-zero policy violates the
contract for target 5 on the empty file. -/
theorem c3_witness :
    (ensure_size polZero file0 5).1 = some Err.resizePolicyFail ∧
    (ensure_size polZero file0 5).2.current_size = file0.current_size ∧
    (ensure_size polZero file0 5).2.regions = file0.regions :=
  c3_resize_policy_violation Unit polZero file0 5 (by decide) (by decide)

/-- Claim C9: write grows the file through the ensure_size mechanism exactly
when offset + len exceeds current_size, is a pure write otherwise, and any
successful write leaves current_size at least offset + len. -/
theorem c9_write_grows (σ : Type) (pol : RsPolicy σ) (f : ExFile σ)
    (off : Int) (len : Nat) :
    (off + (len : Int) ≤ f.current_size → write pol f off len = (none, f)) ∧
    (f.current_size < off + (len : Int) →
       write pol f off len = ensure_size pol f (off + (len : Int))) ∧
    (∀ g, write pol f off len = (none, g) →
       off + (len : Int) ≤ g.current_size) := by
  refine ⟨?_, ?_, ?_⟩
  · intro h
    unfold write
    rw [if_neg (not_lt.mpr h)]
  · intro h
    unfold write
    rw [if_pos h]
  · intro g hg
    unfold write at hg
    split at hg
    · next hlt =>
      unfold ensure_size at hg
      split at hg
      · next hle => omega
      · split at hg
        · simp at hg
        · next hok =>
          simp only [Prod.mk.injEq] at hg
          rw [← hg.2]
          simp only [not_lt] at hok
          exact hok
    · next hlt =>
      simp only [Prod.mk.injEq] at hg
      rw [← hg.2]
      omega

/-- Witness for C9 at a concrete input: writing 100 bytes at offset 0 of a
4096-byte file needs no growth. -/
theorem c9_witness : write polId fileA 0 100 = (none, fileA) :=
  (c9_write_grows Unit polId fileA 0 100).1 (by decide)

/-- Claim C8: the Fibonacci policy, for any resize call, returns
max(nsize, p0 + p1) rounded up to the page size with (p0, p1) its remembered
pair seeded from current_size on first use, remembers (p1, result)
afterwards, and its result respects the lower bound and page alignment. -/
theorem c8_fibo_policy (page : Nat) (nsize csize : Int)
    (st : Option (Int × Int)) (hp : 0 < page) (hn : 0 ≤ nsize) :
    iw_exfile_repolicy_fibo page nsize csize st =
      (roundUpPage page
         (max nsize ((st.getD (csize, csize)).1 + (st.getD (csize, csize)).2)),
       some ((st.getD (csize, csize)).2,
         roundUpPage page
           (max nsize ((st.getD (csize, csize)).1 + (st.getD (csize, csize)).2)))) ∧
    nsize ≤ (iw_exfile_repolicy_fibo page nsize csize st).1 ∧
    (page : Int) ∣ (iw_exfile_repolicy_fibo page nsize csize st).1 := by
  have hne : nsize ≠ -1 := by omega
  have he := fibo_resize_eq page nsize csize st hne
  refine ⟨he, ?_, ?_⟩
  · rw [he]
    exact le_trans (le_max_left _ _) (le_roundUpPage page hp _)
  · rw [he]
    exact dvd_mul_right _ _

/-- Witness for C8 at a concrete input: the first resize call for 10000 bytes
from size 0 with page size 4096 returns at least the requested size. -/
theorem c8_witness :
    10000 ≤ (iw_exfile_repolicy_fibo 4096 10000 0 none).1 :=
  (c8_fibo_policy 4096 10000 0 none (by decide) (by decide)).2.1

/-- Sanity check matching the spec's worked example: the first Fibonacci
resize for 10000 bytes from size 0 with page size 4096 yields 12288. -/
theorem fibo_example_12288 :
    (iw_exfile_repolicy_fibo 4096 10000 0 none).1 = 12288 := by decide

/-- Claim C5: truncate sets current_size exactly to the nonnegative target
with no resize-policy call, keeps every region registered with its declared
span, unmaps regions lying beyond the target, and a later successful
ensure_size covering a region's whole span restores its full mapped length
without a new add_mmap. -/
theorem c5_truncate_exact (σ : Type) (f : ExFile σ) (t : Int) (ht : 0 ≤ t) :
    (truncate f t).1 = none ∧
    (truncate f t).2.current_size = t ∧
    (truncate f t).2.rtrace = f.rtrace ∧
    (truncate f t).2.regions.map (fun r => (r.offset, r.capacity)) =
      f.regions.map (fun r => (r.offset, r.capacity)) ∧
    (∀ r ∈ (truncate f t).2.regions, t ≤ r.offset → r.mapped_len = 0) ∧
    (∀ (pol : RsPolicy σ) (s : Int) (g : ExFile σ),
       ensure_size pol (truncate f t).2 s = (none, g) →
       ∀ r ∈ g.regions, r.offset + (r.capacity : Int) ≤ g.current_size →
         r.mapped_len = r.capacity) := by
  have htr : truncate f t =
      (none, { f with current_size := t, regions := remapAll t f.regions }) := by
    unfold truncate
    rw [if_neg (not_lt.mpr ht)]
  refine ⟨by rw [htr], by rw [htr], by rw [htr], ?_, ?_, ?_⟩
  · rw [htr]
    show (remapAll t f.regions).map _ = _
    rw [remapAll, List.map_map]
    rfl
  · intro r hr htr'
    rw [htr] at hr
    rcases List.mem_map.mp hr with ⟨r0, _, rfl⟩
    show min r0.capacity (t - r0.offset).toNat = 0
    have h0 : t ≤ r0.offset := htr'
    omega
  · intro pol s g hg r hr hcap
    have h1 : SizeInv (truncate f t).2 := truncate_sizeInv f t ht
    have h2 := ensure_size_sizeInv pol (truncate f t).2 s h1
    rw [hg] at h2
    have hm : r.mapped_len = min r.capacity (g.current_size - r.offset).toNat :=
      h2 r hr
    omega

/-- Witness for C5 at a concrete input: truncating the 4096-byte file with
one region to 0 makes current_size exactly 0. -/
theorem c5_witness : (truncate fileA 0).2.current_size = 0 :=
  (c5_truncate_exact Unit fileA 0 (by decide)).2.1

/-- Claim C2: an add_mmap whose declared span intersects a registered
region's declared span fails with mmap-overlap leaving the state unchanged,
and a registry without overlapping declared spans still has none after any
add_mmap. -/
theorem c2_no_overlap (σ : Type) (f : ExFile σ) (off : Int) (len : Nat)
    (hoff : 0 ≤ off) (hlen : 0 < len) :
    ((∃ r ∈ f.regions,
        off < r.offset + (r.capacity : Int) ∧ r.offset < off + (len : Int)) →
       add_mmap f off len = (some Err.mmapOverlap, f)) ∧
    (NoOverlap f.regions → NoOverlap (add_mmap f off len).2.regions) := by
  have hvalid : ¬(off < 0 ∨ len = 0) := by omega
  constructor
  · rintro ⟨r, hr, h1, h2⟩
    have hany : f.regions.any (overlapsB off len) = true := by
      rw [List.any_eq_true]
      exact ⟨r, hr, by simp [overlapsB, h1, h2]⟩
    unfold add_mmap
    rw [if_neg hvalid, if_pos hany]
  · intro hno
    unfold add_mmap
    rw [if_neg hvalid]
    split
    · exact hno
    · next hna =>
      rw [Bool.not_eq_true, List.any_eq_false] at hna
      show NoOverlap (f.regions ++ [_])
      rw [NoOverlap, List.pairwise_append]
      refine ⟨hno, by simp, ?_⟩
      intro a ha b hb
      simp only [List.mem_singleton] at hb
      subst hb
      have hfa := hna a ha
      simp only [overlapsB, Bool.and_eq_true, decide_eq_true_eq, not_and] at hfa
      rintro ⟨h1, h2⟩
      exact hfa h2 h1

/-- Witness for C2 at a concrete input: mapping [2048, 6144) over the
registered region [0, 4096) fails with mmap-overlap and changes nothing. -/
theorem c2_witness : add_mmap fileA 2048 4096 = (some Err.mmapOverlap, fileA) :=
  (c2_no_overlap Unit fileA 2048 4096 (by decide) (by decide)).1
    ⟨{ offset := 0, capacity := 4096, mapped_len := 4096 }, by decide,
      by decide, by decide⟩

lemma lookup_miss (f : ExFile σ) (off : Int)
    (h : ∀ r ∈ f.regions, r.offset ≠ off) :
    get_mmap f off = Except.error Err.notMmaped ∧
    remove_mmap f off = (some Err.notMmaped, f) ∧
    sync_mmap f off = (some Err.notMmaped, f) := by
  have hfind : f.regions.find? (fun r => r.offset == off) = none := by
    rw [List.find?_eq_none]
    intro r hr
    simpa using h r hr
  have hany : f.regions.any (fun r => r.offset == off) = false := by
    rw [List.any_eq_false]
    intro r hr
    simpa using h r hr
  refine ⟨?_, ?_, ?_⟩
  · unfold get_mmap
    rw [hfind]
  · unfold remove_mmap
    rw [hany]
    simp
  · unfold sync_mmap
    rw [hfind]

/-- Claim C7: get_mmap, remove_mmap and sync_mmap fail with not-mapped on an
offset matching no registered region, get_mmap fails likewise on a matching
region whose mapped_len is zero, a successful remove_mmap makes all three
fail on that offset, and a failing call leaves the state unchanged. -/
theorem c7_not_mapped (σ : Type) (f : ExFile σ) (off : Int) :
    ((∀ r ∈ f.regions, r.offset ≠ off) →
       get_mmap f off = Except.error Err.notMmaped ∧
       remove_mmap f off = (some Err.notMmaped, f) ∧
       sync_mmap f off = (some Err.notMmaped, f)) ∧
    (∀ r, f.regions.find? (fun x => x.offset == off) = some r →
       r.mapped_len = 0 → get_mmap f off = Except.error Err.notMmaped) ∧
    (∀ g, remove_mmap f off = (none, g) →
       get_mmap g off = Except.error Err.notMmaped ∧
       remove_mmap g off = (some Err.notMmaped, g) ∧
       sync_mmap g off = (some Err.notMmaped, g)) := by
  refine ⟨lookup_miss f off, ?_, ?_⟩
  · intro r hfind hml
    unfold get_mmap
    rw [hfind]
    show (if r.mapped_len = 0 then _ else _) = _
    rw [if_pos hml]
  · intro g hg
    have hgr : g.regions = f.regions.filter (fun r => r.offset != off) := by
      unfold remove_mmap at hg
      split at hg
      · simp only [Prod.mk.injEq] at hg
        rw [← hg.2]
      · simp at hg
    refine lookup_miss g off ?_
    intro r hr
    rw [hgr] at hr
    simpa using (List.mem_filter.mp hr).2

/-- Witness for C7 at a concrete input: offset 999 was never registered, so
all three mapping lookups fail with not-mapped and change nothing. -/
theorem c7_witness :
    get_mmap fileA 999 = Except.error Err.notMmaped ∧
    remove_mmap fileA 999 = (some Err.notMmaped, fileA) ∧
    sync_mmap fileA 999 = (some Err.notMmaped, fileA) :=
  (c7_not_mapped Unit fileA 999).1 (by decide)

lemma truncate_sizeInv_any (f : ExFile σ) (t : Int) (h : SizeInv f) :
    SizeInv (truncate f t).2 := by
  unfold truncate
  split
  · exact h
  · exact fun r hr => sizeInv_remap _ _ r hr

lemma add_mmap_sizeInv (f : ExFile σ) (off : Int) (len : Nat)
    (h : SizeInv f) : SizeInv (add_mmap f off len).2 := by
  unfold add_mmap
  split
  · exact h
  · split
    · exact h
    · intro r hr
      rcases List.mem_append.mp hr with h1 | h1
      · exact h r h1
      · simp only [List.mem_singleton] at h1
        subst h1
        rfl

lemma remove_mmap_sizeInv (f : ExFile σ) (off : Int) (h : SizeInv f) :
    SizeInv (remove_mmap f off).2 := by
  unfold remove_mmap
  split
  · intro r hr
    exact h r (List.mem_filter.mp hr).1
  · exact h

lemma sync_mmap_sizeInv (f : ExFile σ) (off : Int) (h : SizeInv f) :
    SizeInv (sync_mmap f off).2 := by
  unfold sync_mmap
  split
  · exact h
  · split <;> exact h

lemma write_sizeInv (pol : RsPolicy σ) (f : ExFile σ) (off : Int) (len : Nat)
    (h : SizeInv f) : SizeInv (write pol f off len).2 := by
  unfold write
  split
  · exact ensure_size_sizeInv pol f _ h
  · exact h

lemma applyOp_sizeInv (pol : RsPolicy σ) (f : ExFile σ) (op : ExOp)
    (h : SizeInv f) : SizeInv (applyOp pol f op).2 := by
  cases op with
  | ensure t => exact ensure_size_sizeInv pol f t h
  | trunc t => exact truncate_sizeInv_any f t h
  | addm o l => exact add_mmap_sizeInv f o l h
  | remm o => exact remove_mmap_sizeInv f o h
  | wr o l => exact write_sizeInv pol f o l h
  | syncm o => exact sync_mmap_sizeInv f o h

lemma runOps_sizeInv (pol : RsPolicy σ) (f : ExFile σ) (ops : List ExOp)
    (h : SizeInv f) : SizeInv (runOps pol f ops) := by
  induction ops generalizing f with
  | nil => exact h
  | cons op rest ih => exact ih _ (applyOp_sizeInv pol f op h)

/-- Claim C1: starting from an empty registry, after any sequence of
structural operations (in particular after every successful ensure_size or
truncate) every registered region's mapped_len equals
min(capacity, max(0, current_size - offset)) at the current file size. -/
theorem c1_mapping_tracks_size (σ : Type) (pol : RsPolicy σ) (f0 : ExFile σ)
    (ops : List ExOp) (h : f0.regions = []) :
    ∀ r ∈ (runOps pol f0 ops).regions,
      r.mapped_len =
        derivedLen (runOps pol f0 ops).current_size r.offset r.capacity := by
  refine runOps_sizeInv pol f0 ops ?_
  intro r hr
  rw [h] at hr
  simp at hr

/-- Witness for C1 at a concrete input: after add_mmap(0, 4096) and
ensure_size(100) the single region's mapped length is the derived one. -/
theorem c1_witness :
    MmapRegion.mapped_len { offset := 0, capacity := 4096, mapped_len := 100 } =
      derivedLen
        (runOps polId file0 [ExOp.addm 0 4096, ExOp.ensure 100]).current_size
        0 4096 :=
  c1_mapping_tracks_size Unit polId file0 [ExOp.addm 0 4096, ExOp.ensure 100]
    rfl { offset := 0, capacity := 4096, mapped_len := 100 } (by decide)

lemma ensure_csize_mono (pol : RsPolicy σ) (f : ExFile σ) (t : Int) :
    f.current_size ≤ (ensure_size pol f t).2.current_size := by
  unfold ensure_size
  split
  · exact le_refl _
  · next hgt =>
    split
    · exact le_refl _
    · next hok =>
      show f.current_size ≤ (pol t f.current_size f.pstate).1
      omega

lemma ensure_reaches_target (pol : RsPolicy σ) (f : ExFile σ) (t : Int)
    (hpol : ∀ n c s, n ≤ (pol n c s).1) :
    t ≤ (ensure_size pol f t).2.current_size := by
  unfold ensure_size
  split
  · next hle => exact hle
  · next hgt =>
    split
    · next hbad =>
      exact absurd hbad (not_lt.mpr (hpol t f.current_size f.pstate))
    · next hok =>
      show t ≤ (pol t f.current_size f.pstate).1
      omega

lemma runOps_ensure_mono (pol : RsPolicy σ)
    (hpol : ∀ n c s, n ≤ (pol n c s).1) (ts : List Int) (f : ExFile σ) :
    f.current_size ≤ (runOps pol f (ts.map ExOp.ensure)).current_size ∧
    ∀ u ∈ ts, u ≤ (runOps pol f (ts.map ExOp.ensure)).current_size := by
  induction ts generalizing f with
  | nil => exact ⟨le_refl _, by simp⟩
  | cons t ts ih =>
    have step : runOps pol f ((t :: ts).map ExOp.ensure) =
        runOps pol (ensure_size pol f t).2 (ts.map ExOp.ensure) := rfl
    rw [step]
    obtain ⟨ih1, ih2⟩ := ih (ensure_size pol f t).2
    refine ⟨le_trans (ensure_csize_mono pol f t) ih1, ?_⟩
    intro u hu
    rcases List.mem_cons.mp hu with rfl | hu
    · exact le_trans (ensure_reaches_target pol f u hpol) ih1
    · exact ih2 u hu

/-- Claim C4: ensure_size is a no-op (state identical, so no policy call)
when the target fits the current size, a single call never shrinks the file,
and across any sequence of ensure_size calls under a contract-abiding policy
current_size is non-decreasing and at least every target requested. -/
theorem c4_ensure_size_monotonic (σ : Type) (pol : RsPolicy σ) (f : ExFile σ)
    (t : Int) (ts : List Int) (hpol : ∀ n c s, n ≤ (pol n c s).1) :
    (t ≤ f.current_size → ensure_size pol f t = (none, f)) ∧
    f.current_size ≤ (ensure_size pol f t).2.current_size ∧
    f.current_size ≤ (runOps pol f (ts.map ExOp.ensure)).current_size ∧
    ∀ u ∈ ts, u ≤ (runOps pol f (ts.map ExOp.ensure)).current_size := by
  obtain ⟨h1, h2⟩ := runOps_ensure_mono pol hpol ts f
  refine ⟨?_, ensure_csize_mono pol f t, h1, h2⟩
  intro h
  unfold ensure_size
  rw [if_pos h]

/-- Witness for C4 at a concrete input: ensure_size(0) on the empty file of
size 0 is a no-op. -/
theorem c4_witness : ensure_size polId file0 0 = (none, file0) :=
  (c4_ensure_size_monotonic Unit polId file0 0 [5, 2]
    (fun n _ _ => le_refl n)).1 (by decide)

lemma ensure_size_good (pol : RsPolicy σ) (f : ExFile σ) (t : Int)
    (h : GoodState f) : GoodState (ensure_size pol f t).2 := by
  obtain ⟨h1, h2⟩ := h
  unfold ensure_size
  split
  · exact ⟨h1, h2⟩
  · next hgt =>
    split
    · refine ⟨h1, fun x hx => ?_⟩
      rcases List.mem_append.mp hx with hx | hx
      · exact h2 x hx
      · simp only [List.mem_singleton] at hx
        omega
    · next hok =>
      constructor
      · show 0 ≤ (pol t f.current_size f.pstate).1
        omega
      · intro x hx
        rcases List.mem_append.mp hx with hx | hx
        · exact h2 x hx
        · simp only [List.mem_singleton] at hx
          omega

lemma truncate_good (f : ExFile σ) (t : Int) (h : GoodState f) :
    GoodState (truncate f t).2 := by
  unfold truncate
  split
  · exact h
  · next hneg =>
    refine ⟨?_, h.2⟩
    show 0 ≤ t
    omega

lemma add_mmap_good (f : ExFile σ) (off : Int) (len : Nat)
    (h : GoodState f) : GoodState (add_mmap f off len).2 := by
  unfold add_mmap
  split
  · exact h
  · split
    · exact h
    · exact ⟨h.1, h.2⟩

lemma remove_mmap_good (f : ExFile σ) (off : Int) (h : GoodState f) :
    GoodState (remove_mmap f off).2 := by
  unfold remove_mmap
  split
  · exact ⟨h.1, h.2⟩
  · exact h

lemma sync_mmap_good (f : ExFile σ) (off : Int) (h : GoodState f) :
    GoodState (sync_mmap f off).2 := by
  unfold sync_mmap
  split
  · exact h
  · split <;> exact h

lemma write_good (pol : RsPolicy σ) (f : ExFile σ) (off : Int) (len : Nat)
    (h : GoodState f) : GoodState (write pol f off len).2 := by
  unfold write
  split
  · exact ensure_size_good pol f _ h
  · exact h

lemma applyOp_good (pol : RsPolicy σ) (f : ExFile σ) (op : ExOp)
    (h : GoodState f) : GoodState (applyOp pol f op).2 := by
  cases op with
  | ensure t => exact ensure_size_good pol f t h
  | trunc t => exact truncate_good f t h
  | addm o l => exact add_mmap_good f o l h
  | remm o => exact remove_mmap_good f o h
  | wr o l => exact write_good pol f o l h
  | syncm o => exact sync_mmap_good f o h

lemma runOps_good (pol : RsPolicy σ) (f : ExFile σ) (ops : List ExOp)
    (h : GoodState f) : GoodState (runOps pol f ops) := by
  induction ops generalizing f with
  | nil => exact h
  | cons op rest ih => exact ih _ (applyOp_good pol f op h)

lemma keepFirst_none (b : Option Err) : keepFirst none b = b := rfl

lemma keepFirst_none_right (a : Option Err) : keepFirst a none = a := by
  cases a <;> rfl

lemma keepFirst_assoc (a b c : Option Err) :
    keepFirst (keepFirst a b) c = keepFirst a (keepFirst b c) := by
  cases a <;> rfl

lemma firstSome_cons (e : Option Err) (l : List (Option Err)) :
    firstSome (e :: l) = keepFirst e (firstSome l) := by
  cases e <;> rfl

lemma firstSome_append (l1 l2 : List (Option Err)) :
    firstSome (l1 ++ l2) = keepFirst (firstSome l1) (firstSome l2) := by
  induction l1 with
  | nil => rfl
  | cons e l ih =>
    rw [List.cons_append, firstSome_cons, firstSome_cons, ih, keepFirst_assoc]

lemma foldl_keepFirst_map (u : Int → Option Err) (rs : List MmapRegion)
    (a : Option Err) :
    rs.foldl (fun acc r => keepFirst acc (u r.offset)) a =
      keepFirst a (firstSome (rs.map fun r => u r.offset)) := by
  induction rs generalizing a with
  | nil => rw [List.foldl_nil, List.map_nil]
           exact (keepFirst_none_right a).symm
  | cons r rs ih =>
    rw [List.foldl_cons, ih, List.map_cons, firstSome_cons, keepFirst_assoc]

lemma close_spec (pol : RsPolicy σ) (u : Int → Option Err) (ce : Option Err)
    (f : ExFile σ) :
    close pol u ce f =
      (firstSome ((f.regions.map fun r => u r.offset) ++
         [if (pol (-1) f.current_size f.pstate).1 = 0 then none
          else some Err.resizePolicyFail, ce]),
       { current_size := f.current_size, regions := [],
         pstate := (pol (-1) f.current_size f.pstate).2,
         rtrace := f.rtrace ++ [-1] }) := by
  simp only [close]
  refine Prod.ext ?_ rfl
  rw [foldl_keepFirst_map, keepFirst_none, firstSome_append, firstSome_cons,
    firstSome_cons]
  show _ = keepFirst _ (keepFirst _ (keepFirst ce (firstSome [])))
  rw [show firstSome [] = none from rfl, keepFirst_none_right, keepFirst_assoc]

/-- Claim C6: after any operation sequence from a fresh state, close empties
the registry, invokes the policy teardown call (nsize = -1) exactly once no
matter how many resize calls preceded, attempts every cleanup step, and
returns the first error among the unmap steps, the teardown check and the
underlying-file close. -/
theorem c6_close_cleanup (σ : Type) (pol : RsPolicy σ)
    (unmapErr : Int → Option Err) (closeErr : Option Err) (f0 : ExFile σ)
    (ops : List ExOp) (h0 : f0.rtrace = []) (hc : 0 ≤ f0.current_size) :
    (close pol unmapErr closeErr (runOps pol f0 ops)).2.regions = [] ∧
    List.count (-1)
      (close pol unmapErr closeErr (runOps pol f0 ops)).2.rtrace = 1 ∧
    (close pol unmapErr closeErr (runOps pol f0 ops)).1 =
      firstSome
        (((runOps pol f0 ops).regions.map fun r => unmapErr r.offset) ++
         [if (pol (-1) (runOps pol f0 ops).current_size
               (runOps pol f0 ops).pstate).1 = 0
          then none else some Err.resizePolicyFail, closeErr]) := by
  have hg : GoodState (runOps pol f0 ops) :=
    runOps_good pol f0 ops ⟨hc, by rw [h0]; intro x hx; simp at hx⟩
  rw [close_spec]
  refine ⟨rfl, ?_, rfl⟩
  show List.count (-1) ((runOps pol f0 ops).rtrace ++ [-1]) = 1
  rw [List.count_append]
  have h1 : List.count (-1) (runOps pol f0 ops).rtrace = 0 := by
    rw [List.count_eq_zero]
    intro hmem
    have := hg.2 _ hmem
    omega
  rw [h1]
  decide

/-- Witness for C6 at a concrete input: closing after a single ensure_size
leaves an empty registry. -/
theorem c6_witness :
    (close polId u0 none (runOps polId file0 [ExOp.ensure 5])).2.regions = [] :=
  (c6_close_cleanup Unit polId u0 none file0 [ExOp.ensure 5] rfl (by decide)).1

end Iwexfile
